import Mathlib

/-!
Verification development for `traefik-internal-dns-updater` (`src/main.py`).

The Python module is shallowly embedded as follows:

* module-level configuration constants keep their names and default values
  (the `os.getenv` defaults);
* the `Router` and `Hostname` typed dictionaries become structures (the
  Python field `using` is spelled `usingList` because `using` is a Lean
  keyword);
* the sqlite table `dns(hostname PRIMARY KEY, router)` becomes a list of
  `(hostname, router)` pairs in row order; `INSERT OR REPLACE` deletes the
  conflicting row and appends the fresh one, `DELETE` filters it out;
* `re.finditer` with the module's pattern (literal text `Host(` and a
  backtick, a greedy `.+` group, then a backtick and `)`) is embedded as an
  executable left-to-right scan that, at each match start, takes the longest
  newline-free capture followed by the closing two characters — exactly the
  leftmost, greedy, non-overlapping semantics of the Python engine for this
  pattern;
* the side effects of a tick (DNS mutations via `nsupdate`, store writes)
  are recorded as an `Event` trace; the success or failure of each DNS
  mutation is an oracle `String → Bool` indexed by hostname;
* `subprocess.Popen` is modelled by the pipe configuration the call passes
  (stdin and stdout piped, stderr not), so `communicate` yields `none` for
  the stderr channel, exactly as in the source.
-/

/-! ## Configuration defaults (`os.getenv` defaults in `main.py`) -/

def TRAEFIK_ENTRYPOINTS : List String := ["web", "websecure"]

def DNS_SERVER : String := "192.168.178.1"

def DNS_DOMAIN : String := "fritz.box"

def TARGET_IP : String := "192.168.178.2"

/-! ## Data model -/

/-- The `Router` typed dictionary of `main.py` (the Python field `using`
is spelled `usingList`). -/
structure Router where
  entryPoints : List String
  service : String
  rule : String
  ruleSyntax : String
  priority : Int
  status : String
  usingList : List String
  name : String
  provider : String
deriving DecidableEq

/-- The `Hostname` typed dictionary of `main.py`: one extracted hostname
together with the route it came from. -/
structure Hostname where
  hostname : String
  router : Router
deriving DecidableEq

/-! ## `filter_routers` (main.py lines 101-108) -/

/-- `filter_routers`: keep routers whose `entryPoints` meet the configured
entry-point list. The entry-point list is a parameter (in the source it is
the module constant `TRAEFIK_ENTRYPOINTS`). -/
def filter_routers (entrypoints : List String) (routers : List Router) : List Router :=
  routers.filter (fun router => entrypoints.any (fun e => router.entryPoints.contains e))

/-! ## The hostname regular expression (main.py lines 111-121) -/

/-- The literal prefix of the pattern: `Host(` followed by a backtick. -/
def hostHeader : List Char := "Host(`".data

/-- The literal suffix of the pattern: a backtick followed by `)`. -/
def hostCloser : List Char := "`)".data

/-- Greedy match of the group `(.+)` followed by the closing backtick-paren,
anchored at the start of `rest`: the longest `k ≥ 1` such that the first `k`
characters contain no newline (`.` does not match newline) and are followed
by the closer. Returns the capture and the number of characters consumed
(capture plus closer). -/
def greedyCapture (rest : List Char) : Option (List Char × Nat) :=
  ((List.range (rest.length + 1)).reverse).findSome? (fun k =>
    if 1 ≤ k ∧ '\n' ∉ rest.take k ∧ hostCloser.isPrefixOf (rest.drop k)
    then some (rest.take k, k + 2) else none)

/-- Left-to-right, non-overlapping scan of `re.finditer`: at each position,
if the literal header matches, attempt the greedy capture; on success emit
it and resume after the match, otherwise advance one character. `fuel`
bounds the recursion and is set to the length of the scanned text. -/
def findIterGo : Nat → List Char → List (List Char)
  | 0, _ => []
  | _ + 1, [] => []
  | fuel + 1, c :: cs =>
    if hostHeader.isPrefixOf (c :: cs) then
      match greedyCapture ((c :: cs).drop hostHeader.length) with
      | some (cap, consumed) =>
        cap :: findIterGo fuel (((c :: cs).drop hostHeader.length).drop consumed)
      | none => findIterGo fuel cs
    else
      findIterGo fuel cs

/-- All captures of the module's `hostname_regex` in `s`, in match order. -/
def re_finditer_host (s : String) : List String :=
  (findIterGo s.data.length s.data).map (fun cs => String.mk cs)

/-- `extract_hostnames` (main.py lines 114-121): one `Hostname` record per
regex match, route order then match order. -/
def extract_hostnames (routers : List Router) : List Hostname :=
  routers.flatMap (fun router => (re_finditer_host router.rule).map (fun h => Hostname.mk h router))

/-! ## `update_dns_entry` (main.py lines 124-154) -/

/-- The `nsupdate` transcript built by `update_dns_entry`, line by line:
server and zone directives, the unconditional delete, the add only when not
in delete mode, then `send` and `quit`. -/
def update_dns_transcript (hostname : String) (delete : Bool) : List String :=
  ["server " ++ DNS_SERVER, "zone " ++ DNS_DOMAIN, "update delete " ++ hostname ++ " A"]
    ++ (if delete then [] else ["update add " ++ hostname ++ " 3600 A " ++ TARGET_IP])
    ++ ["send", "quit"]

/-- Outcome of one run of the external transport process: its exit code and
what it wrote on its output and error streams. -/
structure TransportResult where
  returncode : Int
  stdoutText : String
  stderrText : String
deriving DecidableEq

/-- The `Popen` call in `update_dns_entry` passes `stdin=PIPE` and
`stdout=PIPE` but does not redirect the error stream. -/
def popen_stderr_piped : Bool := false

/-- The stderr component of `proc.communicate`: the captured text when the
error stream is piped, `None` otherwise. -/
def communicate_stderr (t : TransportResult) : Option String :=
  if popen_stderr_piped then some t.stderrText else none

/-- The raise behaviour of `update_dns_entry` (lines 147-152): after
`communicate`, raise carrying the `stderr` variable exactly when
`proc.returncode != 0`. -/
def update_dns_entry (t : TransportResult) : Except (Option String) Unit :=
  if t.returncode ≠ 0 then Except.error (communicate_stderr t) else Except.ok ()

/-! ## The durable store (sqlite table `dns`) -/

/-- The `dns` table: `(hostname, router)` rows in rowid order. -/
abbrev Store := List (String × String)

/-- `update_db` (main.py lines 157-167): `INSERT OR REPLACE` removes any
row with the same hostname and appends the fresh row. -/
def update_db (st : Store) (h : Hostname) : Store :=
  st.filter (fun p => p.1 != h.hostname) ++ [(h.hostname, h.router.name)]

/-- The `DELETE FROM dns WHERE hostname = ?` statement in
`cleanup_old_dns_entries`. -/
def delete_from_db (st : Store) (hostname : String) : Store :=
  st.filter (fun p => p.1 != hostname)

/-- The `SELECT` of `cleanup_old_dns_entries` (lines 175-181): the desired
hostnames are joined with commas into a single bound parameter, so the
query keeps every stored hostname different from that one joined string. -/
def old_hostnames (st : Store) (hostnames : List Hostname) : List String :=
  let joined := String.intercalate "," (hostnames.map (fun h => h.hostname))
  (st.map Prod.fst).filter (fun h => h != joined)

/-! ## Event traces of a tick -/

/-- One observable side effect of a tick: a DNS mutation for a hostname
(`delete` false = add mode) with its outcome, or a store write. -/
inductive Event where
  | mutate (hostname : String) (delete : Bool) (ok : Bool)
  | upsertEv (hostname router : String)
  | removeEv (hostname : String)
deriving DecidableEq

/-- The per-hostname loop of `update_loop` (lines 202-207): attempt the DNS
add; on success run `update_db`; on failure skip the store write and
continue with the next record. `addOk` tells whether the DNS mutation for a
hostname succeeds. -/
def publish (addOk : String → Bool) : List Hostname → Store → Store × List Event
  | [], st => (st, [])
  | h :: hs, st =>
    if addOk h.hostname then
      let res := publish addOk hs (update_db st h)
      (res.1, Event.mutate h.hostname false true :: Event.upsertEv h.hostname h.router.name :: res.2)
    else
      let res := publish addOk hs st
      (res.1, Event.mutate h.hostname false false :: res.2)

/-- The per-hostname loop of `cleanup_old_dns_entries` (lines 184-190):
attempt the DNS delete; on success delete the row; on failure continue. -/
def retire (delOk : String → Bool) : List String → Store → Store × List Event
  | [], st => (st, [])
  | h :: hs, st =>
    if delOk h then
      let res := retire delOk hs (delete_from_db st h)
      (res.1, Event.mutate h true true :: Event.removeEv h :: res.2)
    else
      let res := retire delOk hs st
      (res.1, Event.mutate h true false :: res.2)

/-- `cleanup_old_dns_entries` (main.py lines 170-194): compute the old
hostnames from the store and the desired records, then retire them. -/
def cleanup_old_dns_entries (delOk : String → Bool) (hostnames : List Hostname) (st : Store) :
    Store × List Event :=
  retire delOk (old_hostnames st hostnames) st

/-- `update_loop` (main.py lines 197-209), one tick: fetch, filter,
extract, publish, clean up. The fetch outcome is a parameter; when the
fetch raised, the exception propagates before any mutation, so the store is
unchanged and the trace is empty. -/
def update_loop (entrypoints : List String) (addOk delOk : String → Bool)
    (fetched : Except String (List Router)) (st : Store) : Store × List Event :=
  match fetched with
  | Except.error _ => (st, [])
  | Except.ok routers =>
    let hostnames := extract_hostnames (filter_routers entrypoints routers)
    let pub := publish addOk hostnames st
    let cln := cleanup_old_dns_entries delOk hostnames pub.1
    (cln.1, pub.2 ++ cln.2)

/-! ## The top-level loop (main.py lines 212-220) -/

/-- State of the `while True` loop: running with the current store, or
halted. The source has no path to `halted`; it is present so that
non-termination is a statement, not a tautology. -/
inductive LoopState where
  | running (st : Store)
  | halted

/-- Is the loop still running? -/
def is_running : LoopState → Bool
  | LoopState.running _ => true
  | LoopState.halted => false

/-- One iteration of the `while True` body: run the tick inside
`try`/`except`; whether or not the tick raised (the `Option String`
component), proceed with the store the tick left behind. -/
def loop_step (tick : Store → Store × Option String) : LoopState → LoopState
  | LoopState.running st => LoopState.running (tick st).1
  | LoopState.halted => LoopState.halted

/-- `n` iterations of the top-level loop. -/
def loop_run (tick : Store → Store × Option String) : Nat → LoopState → LoopState
  | 0, s => s
  | n + 1, s => loop_run tick n (loop_step tick s)

/-! ## Concrete routers used in the closed statements below -/

/-- A router advertising the single hostname `a` on entry point `web`. -/
def routerA : Router :=
  ⟨["web"], "svc-a", "Host(`a`)", "v3", 0, "enabled", ["web"], "r1", "docker"⟩

/-- A router advertising the single hostname `c` on entry point `web`. -/
def routerC : Router :=
  ⟨["web"], "svc-c", "Host(`c`)", "v3", 0, "enabled", ["web"], "r2", "docker"⟩

/-- A router whose rule holds two `Host` clauses joined by `||`. -/
def routerAB : Router :=
  ⟨["web"], "svc-ab", "Host(`a.example.com`) || Host(`b.example.com`)", "v3", 0, "enabled",
    ["web"], "r3", "docker"⟩

/-- Routers advertising `x`, `y` and `z` on entry point `web`. -/
def routerX : Router :=
  ⟨["web"], "svc-x", "Host(`x`)", "v3", 0, "enabled", ["web"], "rx", "docker"⟩

def routerY : Router :=
  ⟨["web"], "svc-y", "Host(`y`)", "v3", 0, "enabled", ["web"], "ry", "docker"⟩

def routerZ : Router :=
  ⟨["web"], "svc-z", "Host(`z`)", "v3", 0, "enabled", ["web"], "rz", "docker"⟩

/-- A router whose rule contains no `Host` clause. -/
def routerNoHost : Router :=
  ⟨["web"], "svc-p", "PathPrefix(`/api`)", "v3", 0, "enabled", ["web"], "r9", "docker"⟩

/-! ## Trace observations used by the statements -/

/-- The store-upsert events of a trace that concern hostname `h`. -/
def upserts_for (h : String) (evs : List Event) : List Event :=
  evs.filter (fun e =>
    match e with
    | Event.upsertEv h2 _ => h2 == h
    | _ => false)

/-- Every store write in the trace sits immediately after the matching
successful DNS mutation for the same hostname: an upsert right after a
successful add, a removal right after a successful delete; a store write
anywhere else (at the head, or after a failed mutation) is rejected. -/
def store_ops_guarded : List Event → Bool
  | [] => true
  | Event.upsertEv _ _ :: _ => false
  | Event.removeEv _ :: _ => false
  | Event.mutate h d ok :: Event.upsertEv h2 _ :: rest2 =>
    h2 == h && d == false && ok == true && store_ops_guarded rest2
  | Event.mutate h d ok :: Event.removeEv h2 :: rest2 =>
    h2 == h && d == true && ok == true && store_ops_guarded rest2
  | Event.mutate _ _ _ :: rest => store_ops_guarded rest

/-- A DNS-mutation oracle that fails exactly for hostname `x`. -/
def addOkNotX : String → Bool := fun s => s != "x"

/-- A DNS-mutation oracle under which every mutation succeeds. -/
def delOkAll : String → Bool := fun _ => true

/-! ## Helper lemmas -/

theorem add_line_length (h : String) :
    ("update add " ++ h ++ " 3600 A " ++ TARGET_IP).length = h.length + 32 := by
  have h1 : ("update add " : String).length = 11 := rfl
  have h2 : (" 3600 A " : String).length = 8 := rfl
  have h3 : TARGET_IP.length = 13 := rfl
  rw [String.length_append, String.length_append, String.length_append, h1, h2, h3]
  omega

theorem add_line_ne_server (h : String) :
    "update add " ++ h ++ " 3600 A " ++ TARGET_IP ≠ "server " ++ DNS_SERVER := by
  intro heq
  have hl := congrArg String.length heq
  have hr : ("server " ++ DNS_SERVER).length = 20 := rfl
  rw [add_line_length, hr] at hl
  omega

theorem add_line_ne_zone (h : String) :
    "update add " ++ h ++ " 3600 A " ++ TARGET_IP ≠ "zone " ++ DNS_DOMAIN := by
  intro heq
  have hl := congrArg String.length heq
  have hr : ("zone " ++ DNS_DOMAIN).length = 14 := rfl
  rw [add_line_length, hr] at hl
  omega

theorem delete_line_length (h : String) :
    ("update delete " ++ h ++ " A").length = h.length + 16 := by
  have h1 : ("update delete " : String).length = 14 := rfl
  have h2 : (" A" : String).length = 2 := rfl
  rw [String.length_append, String.length_append, h1, h2]
  omega

theorem add_line_ne_delete (h : String) :
    "update add " ++ h ++ " 3600 A " ++ TARGET_IP ≠ "update delete " ++ h ++ " A" := by
  intro heq
  have hl := congrArg String.length heq
  rw [add_line_length, delete_line_length] at hl
  omega

theorem add_line_ne_send (h : String) :
    "update add " ++ h ++ " 3600 A " ++ TARGET_IP ≠ "send" := by
  intro heq
  have hl := congrArg String.length heq
  have hr : ("send" : String).length = 4 := rfl
  rw [add_line_length, hr] at hl
  omega

theorem add_line_ne_quit (h : String) :
    "update add " ++ h ++ " 3600 A " ++ TARGET_IP ≠ "quit" := by
  intro heq
  have hl := congrArg String.length heq
  have hr : ("quit" : String).length = 4 := rfl
  rw [add_line_length, hr] at hl
  omega

/-! ## Claim theorems -/

/-- C1: the spec says the stale set is (all persisted hostnames) minus
(the distinct hostnames in the desired sequence), so with persisted
{a, b, c} and desired {a, c} it should be exactly {b}. The code binds the
comma-joined desired hostnames as a single `NOT IN` parameter, so it
computes {a, b, c} and retires all three, emptying the store. -/
theorem old_hostnames_join_bug :
    old_hostnames [("a", "r1"), ("b", "r2"), ("c", "r3")]
        [⟨"a", routerA⟩, ⟨"c", routerC⟩] = ["a", "b", "c"] ∧
    (cleanup_old_dns_entries delOkAll [⟨"a", routerA⟩, ⟨"c", routerC⟩]
        [("a", "r1"), ("b", "r2"), ("c", "r3")]).1 = [] := by
  decide

/-- C2: the spec says that after a tick without mutation errors the
persisted hostname set equals the distinct extracted hostnames. Starting
from the empty store with desired hostnames a and c and every mutation
succeeding, the adds first persist both, but the cleanup's joined `NOT IN`
parameter ("a,c") matches neither, so both rows are retired again and the
tick ends with an empty store instead of {a, c}. -/
theorem update_loop_convergence_bug :
    (extract_hostnames (filter_routers TRAEFIK_ENTRYPOINTS [routerA, routerC])).map
        (fun h => h.hostname) = ["a", "c"] ∧
    (publish delOkAll
        (extract_hostnames (filter_routers TRAEFIK_ENTRYPOINTS [routerA, routerC])) []).1
      = [("a", "r1"), ("c", "r2")] ∧
    (update_loop TRAEFIK_ENTRYPOINTS delOkAll delOkAll
        (Except.ok [routerA, routerC]) []).1 = [] := by
  decide

/-- C3: the spec says extraction yields one record per backtick-quoted
value inside a `Host(...)` clause, so the rule with two `||`-joined host
clauses should yield a.example.com and b.example.com. The pattern's group
`(.+)` is greedy, so the code returns a single record spanning from the
first opening backtick to the last closing one; a rule without a `Host`
clause does yield zero records. -/
theorem extract_hostnames_greedy_bug :
    (extract_hostnames [routerAB]).map (fun h => h.hostname)
      = ["a.example.com`) || Host(`b.example.com"] ∧
    extract_hostnames [routerNoHost] = [] := by
  decide

/-- C5: the spec says a failed mutation raises carrying the transport's
diagnostic text and that non-zero exit status or error-stream output means
failure. The `Popen` call never pipes the error stream, so `communicate`
returns `None` for it and the raise carries `None` instead of the
diagnostic; and a run that exits 0 after writing a diagnostic does not
raise at all. -/
theorem update_dns_entry_error_bug :
    update_dns_entry ⟨1, "", "SERVFAIL"⟩ = Except.error none ∧
    update_dns_entry ⟨0, "", "SERVFAIL"⟩ = Except.ok () := ⟨rfl, rfl⟩

/-- C4: for every hostname and mode, the transcript starts with the server
and zone directives, always holds the delete line, holds the add line with
TTL 3600 and the target address exactly when the mode is add, and ends with
`send` followed by `quit`. -/
theorem update_dns_transcript_spec (hostname : String) (delete : Bool) :
    (update_dns_transcript hostname delete).head? = some ("server " ++ DNS_SERVER) ∧
    (update_dns_transcript hostname delete)[1]? = some ("zone " ++ DNS_DOMAIN) ∧
    ("update delete " ++ hostname ++ " A") ∈ update_dns_transcript hostname delete ∧
    (("update add " ++ hostname ++ " 3600 A " ++ TARGET_IP) ∈ update_dns_transcript hostname delete
      ↔ delete = false) ∧
    (update_dns_transcript hostname delete).getLast? = some "quit" ∧
    (update_dns_transcript hostname delete).dropLast.getLast? = some "send" := by
  cases delete with
  | false =>
    refine ⟨rfl, rfl, ?_, ?_, rfl, rfl⟩
    · simp [update_dns_transcript]
    · simp [update_dns_transcript]
  | true =>
    refine ⟨rfl, rfl, ?_, ?_, rfl, rfl⟩
    · simp [update_dns_transcript]
    · simp [update_dns_transcript, add_line_ne_server hostname, add_line_ne_zone hostname,
        add_line_ne_delete hostname, add_line_ne_send hostname, add_line_ne_quit hostname]

/-- C7: when the fetch fails, the exception propagates before any DNS or
store mutation, so the tick leaves the store untouched and issues no
transcript. -/
theorem update_loop_fetch_error (entrypoints : List String) (addOk delOk : String → Bool)
    (msg : String) (st : Store) :
    update_loop entrypoints addOk delOk (Except.error msg) st = (st, []) := rfl

/-- C9: the top-level `while True` loop catches whatever a tick raises and
proceeds with the next iteration; for every tick behaviour and every number
of iterations the loop is still running. -/
theorem loop_never_halts (tick : Store → Store × Option String) (n : Nat) (st : Store) :
    is_running (loop_run tick n (LoopState.running st)) = true := by
  induction n generalizing st with
  | zero => rfl
  | succ n ih => exact ih ((tick st).1)
theorem publish_upserts_for_nil (addOk : String → Bool) (x : String) (hfail : addOk x = false) :
    ∀ (hs : List Hostname) (st : Store), upserts_for x (publish addOk hs st).2 = [] := by
  intro hs
  induction hs with
  | nil => intro st; rfl
  | cons h hs ih =>
    intro st
    by_cases hok : addOk h.hostname = true
    · have hne : (h.hostname == x) = false := by
        cases hbx : h.hostname == x with
        | false => rfl
        | true =>
          have hhx : h.hostname = x := beq_iff_eq.mp hbx
          rw [hhx, hfail] at hok
          cases hok
      simp only [publish, hok, if_true]
      simp only [upserts_for, List.filter_cons] at ih ⊢
      simp [hne, ih]
    · have hok2 : addOk h.hostname = false := by
        cases hv : addOk h.hostname with
        | false => rfl
        | true => exact absurd hv hok
      simp only [publish, hok2, Bool.false_eq_true, if_false]
      simp only [upserts_for, List.filter_cons] at ih ⊢
      simp [ih]

theorem publish_mutate_mem (addOk : String → Bool) :
    ∀ (hs : List Hostname) (st : Store) (y : Hostname), y ∈ hs →
      Event.mutate y.hostname false (addOk y.hostname) ∈ (publish addOk hs st).2 := by
  intro hs
  induction hs with
  | nil => intro st y hy; cases hy
  | cons h hs ih =>
    intro st y hy
    rcases List.mem_cons.mp hy with hyh | hyt
    · subst hyh
      cases hok : addOk y.hostname with
      | true => simp [publish, hok]
      | false => simp [publish, hok]
    · cases hok : addOk h.hostname with
      | true =>
        simp only [publish, hok, if_true]
        exact List.mem_cons_of_mem _ (List.mem_cons_of_mem _ (ih _ y hyt))
      | false =>
        simp only [publish, hok, Bool.false_eq_true, if_false]
        exact List.mem_cons_of_mem _ (ih _ y hyt)

theorem publish_upsert_mem (addOk : String → Bool) :
    ∀ (hs : List Hostname) (st : Store) (y : Hostname), y ∈ hs → addOk y.hostname = true →
      Event.upsertEv y.hostname y.router.name ∈ (publish addOk hs st).2 := by
  intro hs
  induction hs with
  | nil => intro st y hy; cases hy
  | cons h hs ih =>
    intro st y hy hok
    rcases List.mem_cons.mp hy with hyh | hyt
    · subst hyh
      simp [publish, hok]
    · cases hok2 : addOk h.hostname with
      | true =>
        simp only [publish, hok2, if_true]
        exact List.mem_cons_of_mem _ (List.mem_cons_of_mem _ (ih _ y hyt hok))
      | false =>
        simp only [publish, hok2, Bool.false_eq_true, if_false]
        exact List.mem_cons_of_mem _ (ih _ y hyt hok)

/-- C6: within one tick's publishing phase, if the DNS mutation for a
hostname `x` in the desired sequence fails, `x`'s store upsert is skipped
(no upsert event for `x` appears in the trace), while every record in the
sequence still has its DNS mutation attempted and, on success, its store
upsert performed. -/
theorem publish_partial_failure (addOk : String → Bool) (hs : List Hostname) (st : Store)
    (x : Hostname) (hx : x ∈ hs) (hfail : addOk x.hostname = false) :
    upserts_for x.hostname (publish addOk hs st).2 = [] ∧
    hs.all (fun y => (publish addOk hs st).2.contains
      (Event.mutate y.hostname false (addOk y.hostname))) = true ∧
    hs.all (fun y => !(addOk y.hostname)
      || (publish addOk hs st).2.contains (Event.upsertEv y.hostname y.router.name)) = true := by
  refine ⟨publish_upserts_for_nil addOk x.hostname hfail hs st, ?_, ?_⟩
  · exact List.all_eq_true.mpr (fun y hy =>
      List.elem_eq_true_of_mem (publish_mutate_mem addOk hs st y hy))
  · refine List.all_eq_true.mpr (fun y hy => ?_)
    cases hok : addOk y.hostname with
    | false => simp
    | true =>
      simp only [hok, Bool.not_true, Bool.false_or]
      exact List.elem_eq_true_of_mem (publish_upsert_mem addOk hs st y hy hok)

theorem publish_partial_failure_witness :
    (Hostname.mk "x" routerX ∈ [Hostname.mk "x" routerX, Hostname.mk "y" routerY,
        Hostname.mk "z" routerZ]) ∧
    addOkNotX (Hostname.mk "x" routerX).hostname = false ∧
    (upserts_for (Hostname.mk "x" routerX).hostname
        (publish addOkNotX [Hostname.mk "x" routerX, Hostname.mk "y" routerY,
          Hostname.mk "z" routerZ] []).2 = [] ∧
      ([Hostname.mk "x" routerX, Hostname.mk "y" routerY, Hostname.mk "z" routerZ].all
        (fun y => (publish addOkNotX [Hostname.mk "x" routerX, Hostname.mk "y" routerY,
          Hostname.mk "z" routerZ] []).2.contains
            (Event.mutate y.hostname false (addOkNotX y.hostname))) = true) ∧
      ([Hostname.mk "x" routerX, Hostname.mk "y" routerY, Hostname.mk "z" routerZ].all
        (fun y => !(addOkNotX y.hostname)
          || (publish addOkNotX [Hostname.mk "x" routerX, Hostname.mk "y" routerY,
            Hostname.mk "z" routerZ] []).2.contains
              (Event.upsertEv y.hostname y.router.name)) = true)) :=
  ⟨by decide, by decide,
    publish_partial_failure addOkNotX _ [] (Hostname.mk "x" routerX) (by decide) (by decide)⟩

theorem guarded_cons_chunk_upsert (h r : String) (evs : List Event)
    (hevs : store_ops_guarded evs = true) :
    store_ops_guarded (Event.mutate h false true :: Event.upsertEv h r :: evs) = true := by
  simp [store_ops_guarded, hevs]

theorem guarded_cons_chunk_remove (h : String) (evs : List Event)
    (hevs : store_ops_guarded evs = true) :
    store_ops_guarded (Event.mutate h true true :: Event.removeEv h :: evs) = true := by
  simp [store_ops_guarded, hevs]

theorem guarded_cons_mutate_fail (h : String) (d : Bool) (evs : List Event)
    (hevs : store_ops_guarded evs = true) :
    store_ops_guarded (Event.mutate h d false :: evs) = true := by
  cases evs with
  | nil => simp [store_ops_guarded]
  | cons e tl =>
    cases e with
    | mutate h2 d2 ok2 => simpa [store_ops_guarded] using hevs
    | upsertEv h2 r2 => simp [store_ops_guarded] at hevs
    | removeEv h2 => simp [store_ops_guarded] at hevs

theorem guarded_retire (delOk : String → Bool) :
    ∀ (l : List String) (st : Store), store_ops_guarded (retire delOk l st).2 = true := by
  intro l
  induction l with
  | nil => intro st; rfl
  | cons h hs ih =>
    intro st
    cases hok : delOk h with
    | true =>
      simp only [retire, hok, if_true]
      exact guarded_cons_chunk_remove h _ (ih _)
    | false =>
      simp only [retire, hok, Bool.false_eq_true, if_false]
      exact guarded_cons_mutate_fail h true _ (ih _)

theorem guarded_publish_append (addOk : String → Bool) :
    ∀ (hs : List Hostname) (st : Store) (tail : List Event),
      store_ops_guarded tail = true →
      store_ops_guarded ((publish addOk hs st).2 ++ tail) = true := by
  intro hs
  induction hs with
  | nil => intro st tail htail; simpa [publish] using htail
  | cons h hs ih =>
    intro st tail htail
    cases hok : addOk h.hostname with
    | true =>
      simp only [publish, hok, if_true, List.cons_append]
      exact guarded_cons_chunk_upsert h.hostname h.router.name _ (ih _ _ htail)
    | false =>
      simp only [publish, hok, Bool.false_eq_true, if_false, List.cons_append]
      exact guarded_cons_mutate_fail h.hostname false _ (ih _ _ htail)

/-- C8: in every tick, each store write sits immediately after the
successful DNS mutation it belongs to — an upsert right after a successful
add for that hostname, a row deletion right after a successful delete for
that hostname — and a failed mutation is never followed by a store write. -/
theorem tick_store_ops_guarded (entrypoints : List String) (addOk delOk : String → Bool)
    (fetched : Except String (List Router)) (st : Store) :
    store_ops_guarded (update_loop entrypoints addOk delOk fetched st).2 = true := by
  cases fetched with
  | error e => rfl
  | ok routers =>
    exact guarded_publish_append addOk _ st _ (guarded_retire delOk _ _)

theorem retire_fst (delOk : String → Bool) :
    ∀ (l : List String) (st : Store),
      (retire delOk l st).1 = st.filter (fun p => !(l.contains p.1 && delOk p.1)) := by
  intro l
  induction l with
  | nil => intro st; simp [retire]
  | cons h hs ih =>
    intro st
    cases hok : delOk h with
    | true =>
      simp only [retire, hok, if_true]
      rw [ih, delete_from_db, List.filter_filter]
      refine List.filter_congr (fun p _ => ?_)
      cases hbh : p.1 == h with
      | true =>
        have hph : p.1 = h := beq_iff_eq.mp hbh
        simp [List.contains_cons, hbh, hph, hok]
      | false =>
        have hne : p.1 ≠ h := by simpa using hbh
        simp [List.contains_cons, hbh, hne]
    | false =>
      simp only [retire, hok, Bool.false_eq_true, if_false]
      rw [ih]
      refine List.filter_congr (fun p _ => ?_)
      cases hbh : p.1 == h with
      | true =>
        have hph : p.1 = h := beq_iff_eq.mp hbh
        simp [List.contains_cons, hbh, hph, hok]
      | false =>
        have hne : p.1 ≠ h := by simpa using hbh
        simp [List.contains_cons, hbh, hne]

theorem old_hostnames_nil (st : Store) (hne : st.all (fun p => p.1 != "") = true) :
    old_hostnames st [] = st.map Prod.fst := by
  unfold old_hostnames
  simp only [List.map_nil, String.intercalate]
  refine List.filter_eq_self.mpr (fun a ha => ?_)
  rcases List.mem_map.mp ha with ⟨p, hp, hpa⟩
  subst hpa
  exact List.all_eq_true.mp hne p hp

theorem retire_mutate_mem (delOk : String → Bool) :
    ∀ (l : List String) (st : Store) (h : String), h ∈ l → delOk h = true →
      Event.mutate h true true ∈ (retire delOk l st).2 := by
  intro l
  induction l with
  | nil => intro st h hh; cases hh
  | cons a hs ih =>
    intro st h hh hok
    rcases List.mem_cons.mp hh with hha | hht
    · subst hha
      simp [retire, hok]
    · cases hoka : delOk a with
      | true =>
        simp only [retire, hoka, if_true]
        exact List.mem_cons_of_mem _ (List.mem_cons_of_mem _ (ih _ h hht hok))
      | false =>
        simp only [retire, hoka, Bool.false_eq_true, if_false]
        exact List.mem_cons_of_mem _ (ih _ h hht hok)

/-- C10 (amended): for every store state in which no persisted hostname is
the empty string, when the tick's desired hostname list is empty, the
cleanup step selects every persisted hostname as stale, issues a DNS delete
for each, and — every delete succeeding — removes every row, leaving the
store empty. (Unamended the claim fails: the joined `NOT IN` parameter is
the empty string, so a persisted empty-string hostname is never selected.) -/
theorem cleanup_empty_desired (st : Store) (hne : st.all (fun p => p.1 != "") = true) :
    old_hostnames st [] = st.map Prod.fst ∧
    (cleanup_old_dns_entries delOkAll [] st).1 = [] ∧
    st.all (fun p =>
      (cleanup_old_dns_entries delOkAll [] st).2.contains (Event.mutate p.1 true true)) = true := by
  refine ⟨old_hostnames_nil st hne, ?_, ?_⟩
  · unfold cleanup_old_dns_entries
    rw [old_hostnames_nil st hne, retire_fst]
    refine List.filter_eq_nil_iff.mpr (fun p hp => ?_)
    have hmem : p.1 ∈ st.map Prod.fst := List.mem_map_of_mem Prod.fst hp
    simp [List.elem_eq_true_of_mem hmem, delOkAll]
    exact ⟨p.2, hp⟩
  · refine List.all_eq_true.mpr (fun p hp => ?_)
    unfold cleanup_old_dns_entries
    rw [old_hostnames_nil st hne]
    exact List.elem_eq_true_of_mem
      (retire_mutate_mem delOkAll _ st p.1 (List.mem_map_of_mem Prod.fst hp) rfl)

/-- C10 (counterexample): a store whose only persisted hostname is the
empty string refutes the unrestricted claim — with an empty desired list
the cleanup's `NOT IN` parameter is the empty string, so the select returns
nothing, nothing is retired, and the store stays nonempty. -/
theorem cleanup_empty_desired_counterexample :
    old_hostnames [("", "r0")] [] = [] ∧
    (cleanup_old_dns_entries delOkAll [] [("", "r0")]).1 = [("", "r0")] := by
  decide

/-- Witness for the amended C10 at a concrete two-row store. -/
theorem cleanup_empty_desired_witness :
    (([("a", "r1"), ("b", "r2")] : Store).all (fun p => p.1 != "") = true) ∧
    (old_hostnames [("a", "r1"), ("b", "r2")] []
        = ([("a", "r1"), ("b", "r2")] : Store).map Prod.fst ∧
      (cleanup_old_dns_entries delOkAll [] [("a", "r1"), ("b", "r2")]).1 = [] ∧
      ([("a", "r1"), ("b", "r2")] : Store).all (fun p =>
        (cleanup_old_dns_entries delOkAll [] [("a", "r1"), ("b", "r2")]).2.contains
          (Event.mutate p.1 true true)) = true) :=
  ⟨by decide, cleanup_empty_desired [("a", "r1"), ("b", "r2")] (by decide)⟩
